import Mathlib

/-!
Shallow embedding of the filtering and aggregation pipeline of `main.py`,
an interactive dashboard over a table of city-level air-quality and
water-pollution measurements.  DataFrame rows become `Record`s, the
DataFrame itself a `List Record`; pandas boolean-mask filtering becomes
`List.filter`; the numeric columns are modelled exactly by `ℚ`.
-/

/-- One row of the dataset: one city's measurements (columns City, Country,
Region, AirQuality, WaterPollution). -/
structure Record where
  city : String
  country : String
  region : String
  airQuality : ℚ
  waterPollution : ℚ
  deriving DecidableEq

/-- User-selected filter configuration: the two selectbox values (with the
sentinel "All") and the two inclusive slider ranges. -/
structure FilterState where
  country : String
  region : String
  airLo : ℚ
  airHi : ℚ
  waterLo : ℚ
  waterHi : ℚ
  deriving DecidableEq

/-- Embeds `if selected_country != "All": df = df[df["Country"] == selected_country]`
(main.py line 38-39). -/
def filter_by_country (ds : List Record) (c : String) : List Record :=
  if c = "All" then ds else ds.filter (fun r => r.country == c)

/-- Embeds `if selected_region != "All": df = df[df["Region"] == selected_region]`
(main.py line 42-43). -/
def filter_by_region (ds : List Record) (g : String) : List Record :=
  if g = "All" then ds else ds.filter (fun r => r.region == g)

/-- Embeds `df = df[(df["AirQuality"] >= lo) & (df["AirQuality"] <= hi)]`
(main.py line 56). -/
def filter_air_range (ds : List Record) (lo hi : ℚ) : List Record :=
  ds.filter (fun r => decide (lo ≤ r.airQuality) && decide (r.airQuality ≤ hi))

/-- Embeds `df = df[(df["WaterPollution"] >= lo) & (df["WaterPollution"] <= hi)]`
(main.py line 57). -/
def filter_water_range (ds : List Record) (lo hi : ℚ) : List Record :=
  ds.filter (fun r => decide (lo ≤ r.waterPollution) && decide (r.waterPollution ≤ hi))

/-- The sequential sidebar filter pipeline of main.py lines 37-57: country,
then region, then the two numeric range masks, each reassigning `df`. -/
def apply_filters (ds : List Record) (st : FilterState) : List Record :=
  filter_water_range
    (filter_air_range
      (filter_by_region (filter_by_country ds st.country) st.region)
      st.airLo st.airHi)
    st.waterLo st.waterHi

/-- Spec-side predicate (from the claim's words, to be compared with the
sequential pipeline of the source): the conjunction of the four filter
predicates of the specification's Filter Engine. -/
def satisfies_all (st : FilterState) (r : Record) : Prop :=
  (st.country = "All" ∨ r.country = st.country) ∧
  (st.region = "All" ∨ r.region = st.region) ∧
  (st.airLo ≤ r.airQuality ∧ r.airQuality ≤ st.airHi) ∧
  (st.waterLo ≤ r.waterPollution ∧ r.waterPollution ≤ st.waterHi)

instance (st : FilterState) (r : Record) : Decidable (satisfies_all st r) := by
  unfold satisfies_all
  infer_instance

theorem mem_filter_by_country {ds : List Record} {c : String} {r : Record} :
    r ∈ filter_by_country ds c ↔ r ∈ ds ∧ (c = "All" ∨ r.country = c) := by
  unfold filter_by_country
  by_cases h : c = "All" <;> simp [h, List.mem_filter]

theorem mem_filter_by_region {ds : List Record} {g : String} {r : Record} :
    r ∈ filter_by_region ds g ↔ r ∈ ds ∧ (g = "All" ∨ r.region = g) := by
  unfold filter_by_region
  by_cases h : g = "All" <;> simp [h, List.mem_filter]

theorem mem_filter_air_range {ds : List Record} {lo hi : ℚ} {r : Record} :
    r ∈ filter_air_range ds lo hi ↔ r ∈ ds ∧ (lo ≤ r.airQuality ∧ r.airQuality ≤ hi) := by
  unfold filter_air_range
  simp [List.mem_filter]

theorem mem_filter_water_range {ds : List Record} {lo hi : ℚ} {r : Record} :
    r ∈ filter_water_range ds lo hi ↔
      r ∈ ds ∧ (lo ≤ r.waterPollution ∧ r.waterPollution ≤ hi) := by
  unfold filter_water_range
  simp [List.mem_filter]

/-- The sequentially applied masks are jointly one conjunctive membership test. -/
theorem mem_apply_filters {ds : List Record} {st : FilterState} {r : Record} :
    r ∈ apply_filters ds st ↔ r ∈ ds ∧ satisfies_all st r := by
  unfold apply_filters satisfies_all
  rw [mem_filter_water_range, mem_filter_air_range, mem_filter_by_region,
    mem_filter_by_country]
  tauto

/-- Sample records, taken from the specification's worked example. -/
def cityA : Record := ⟨"CityA", "CountryX", "RegionY", 80, 20⟩

def cityB : Record := ⟨"CityB", "CountryX", "RegionY", 60, 50⟩

def cityC : Record := ⟨"CityC", "CountryZ", "RegionW", 90, 10⟩

def sampleData : List Record := [cityA, cityB, cityC]

/-- C1: for every dataset, filter state and record, the record belongs to the
filtered view iff it belongs to the dataset and all four predicates hold
conjunctively — the Country predicate (true when the selection is the
sentinel "All", otherwise exact string equality), the Region predicate
(same shape), and the two inclusive numeric-range predicates; consequently
every dataset record outside the view fails at least one predicate. -/
theorem c1_filtered_view_membership (ds : List Record) (st : FilterState) (r : Record) :
    (r ∈ apply_filters ds st ↔
      r ∈ ds ∧ (st.country = "All" ∨ r.country = st.country) ∧
        (st.region = "All" ∨ r.region = st.region) ∧
        (st.airLo ≤ r.airQuality ∧ r.airQuality ≤ st.airHi) ∧
        (st.waterLo ≤ r.waterPollution ∧ r.waterPollution ≤ st.waterHi)) ∧
    (r ∈ ds → r ∉ apply_filters ds st →
      ¬ ((st.country = "All" ∨ r.country = st.country) ∧
        (st.region = "All" ∨ r.region = st.region) ∧
        (st.airLo ≤ r.airQuality ∧ r.airQuality ≤ st.airHi) ∧
        (st.waterLo ≤ r.waterPollution ∧ r.waterPollution ≤ st.waterHi))) := by
  constructor
  · exact mem_apply_filters.trans (by unfold satisfies_all; tauto)
  · intro hmem hnot hsat
    exact hnot (mem_apply_filters.mpr ⟨hmem, by unfold satisfies_all; tauto⟩)

/-- Witness for C1 at a concrete input: CityC is in the sample dataset, is
excluded by the Country=CountryX filter, and indeed fails the predicate
conjunction. -/
theorem c1_filtered_view_membership_witness :
    cityC ∈ sampleData ∧
    cityC ∉ apply_filters sampleData ⟨"CountryX", "All", 0, 100, 0, 100⟩ ∧
    ¬ ((("CountryX" : String) = "All" ∨ cityC.country = "CountryX") ∧
      (("All" : String) = "All" ∨ cityC.region = "All") ∧
      ((0 : ℚ) ≤ cityC.airQuality ∧ cityC.airQuality ≤ 100) ∧
      ((0 : ℚ) ≤ cityC.waterPollution ∧ cityC.waterPollution ≤ 100)) :=
  ⟨by decide, by decide,
    (c1_filtered_view_membership sampleData ⟨"CountryX", "All", 0, 100, 0, 100⟩ cityC).2
      (by decide) (by decide)⟩

/-- Python `int()` truncation toward zero, as applied by main.py to the slider
bounds (`int(df["AirQuality"].min())` and so on, lines 45-53). -/
def pyInt (q : ℚ) : ℤ := if 0 ≤ q then q.floor else -((-q).floor)

theorem rat_num_cast {q : ℚ} (h : q.den = 1) : (q.num : ℚ) = q := by
  conv_rhs => rw [← Rat.num_div_den q, h]
  push_cast
  ring

theorem rat_floor_den_one {q : ℚ} (h : q.den = 1) : q.floor = q.num := by
  rw [Rat.floor_def', h]
  exact Int.ediv_one _

theorem pyInt_den_one {q : ℚ} (h : q.den = 1) : pyInt q = q.num := by
  unfold pyInt
  split
  · exact rat_floor_den_one h
  · rw [rat_floor_den_one (by rw [Rat.neg_den, h]), Rat.neg_num, neg_neg]

/-- pandas `Series.min()` over a column; `none` models the NaN produced on an
empty column. -/
def series_min : List ℚ → Option ℚ
  | [] => none
  | x :: xs => some (xs.foldl min x)

/-- pandas `Series.max()` over a column; `none` models the NaN produced on an
empty column. -/
def series_max : List ℚ → Option ℚ
  | [] => none
  | x :: xs => some (xs.foldl max x)

theorem foldl_min_le (xs : List ℚ) : ∀ x y : ℚ, y ∈ x :: xs → xs.foldl min x ≤ y := by
  induction xs with
  | nil =>
    intro x y hy
    rw [List.mem_singleton] at hy
    simp [hy]
  | cons a as ih =>
    intro x y hy
    rw [List.foldl_cons]
    have hbase : as.foldl min (min x a) ≤ min x a :=
      ih (min x a) (min x a) (List.mem_cons_self _ _)
    rcases List.mem_cons.mp hy with rfl | h
    · exact hbase.trans (min_le_left _ _)
    · rcases List.mem_cons.mp h with rfl | h2
      · exact hbase.trans (min_le_right _ _)
      · exact ih (min x a) y (List.mem_cons_of_mem _ h2)

theorem foldl_min_mem (xs : List ℚ) : ∀ x : ℚ, xs.foldl min x ∈ x :: xs := by
  induction xs with
  | nil => intro x; simp
  | cons a as ih =>
    intro x
    rw [List.foldl_cons]
    rcases List.mem_cons.mp (ih (min x a)) with h | h
    · rw [h]
      rcases min_choice x a with h' | h' <;> rw [h']
      · exact List.mem_cons_self _ _
      · exact List.mem_cons_of_mem _ (List.mem_cons_self _ _)
    · exact List.mem_cons_of_mem _ (List.mem_cons_of_mem _ h)

theorem foldl_le_max (xs : List ℚ) : ∀ x y : ℚ, y ∈ x :: xs → y ≤ xs.foldl max x := by
  induction xs with
  | nil =>
    intro x y hy
    rw [List.mem_singleton] at hy
    simp [hy]
  | cons a as ih =>
    intro x y hy
    rw [List.foldl_cons]
    have hbase : max x a ≤ as.foldl max (max x a) :=
      ih (max x a) (max x a) (List.mem_cons_self _ _)
    rcases List.mem_cons.mp hy with rfl | h
    · exact (le_max_left _ _).trans hbase
    · rcases List.mem_cons.mp h with rfl | h2
      · exact (le_max_right _ _).trans hbase
      · exact ih (max x a) y (List.mem_cons_of_mem _ h2)

theorem foldl_max_mem (xs : List ℚ) : ∀ x : ℚ, xs.foldl max x ∈ x :: xs := by
  induction xs with
  | nil => intro x; simp
  | cons a as ih =>
    intro x
    rw [List.foldl_cons]
    rcases List.mem_cons.mp (ih (max x a)) with h | h
    · rw [h]
      rcases max_choice x a with h' | h' <;> rw [h']
      · exact List.mem_cons_self _ _
      · exact List.mem_cons_of_mem _ (List.mem_cons_self _ _)
    · exact List.mem_cons_of_mem _ (List.mem_cons_of_mem _ h)

theorem series_min_spec {l : List ℚ} (h : l ≠ []) :
    ∃ m, series_min l = some m ∧ m ∈ l ∧ ∀ y ∈ l, m ≤ y := by
  match l, h with
  | x :: xs, _ =>
    exact ⟨xs.foldl min x, rfl, foldl_min_mem xs x, fun y hy => foldl_min_le xs x y hy⟩

theorem series_max_spec {l : List ℚ} (h : l ≠ []) :
    ∃ M, series_max l = some M ∧ M ∈ l ∧ ∀ y ∈ l, y ≤ M := by
  match l, h with
  | x :: xs, _ =>
    exact ⟨xs.foldl max x, rfl, foldl_max_mem xs x, fun y hy => foldl_le_max xs x y hy⟩

/-- Outcome of a fragment of Python code: a value, or an uncaught exception. -/
inductive PyResult (α : Type) where
  | ok (val : α)
  | exn (msg : String)
  deriving DecidableEq

/-- Embeds `int(df["AirQuality"].min())` / `int(df["AirQuality"].max())`
(main.py lines 45-48): on an empty frame `min()` is NaN and Python's
`int(nan)` raises `ValueError`. -/
def air_slider_bounds (ds : List Record) : PyResult (ℤ × ℤ) :=
  match series_min (ds.map Record.airQuality), series_max (ds.map Record.airQuality) with
  | some m, some M => .ok (pyInt m, pyInt M)
  | _, _ => .exn "ValueError: cannot convert float NaN to integer"

/-- Embeds `int(df["WaterPollution"].min())` / `int(df["WaterPollution"].max())`
(main.py lines 50-53). -/
def water_slider_bounds (ds : List Record) : PyResult (ℤ × ℤ) :=
  match series_min (ds.map Record.waterPollution), series_max (ds.map Record.waterPollution) with
  | some m, some M => .ok (pyInt m, pyInt M)
  | _, _ => .exn "ValueError: cannot convert float NaN to integer"

/-- The default filter state: both selectboxes on "All" (under which the
country/region-filtered frame is the whole dataset) and both sliders at
their default value `(int(col.min()), int(col.max()))`; `none` when the
bound computation raises. -/
def default_state (ds : List Record) : Option FilterState :=
  match air_slider_bounds ds, water_slider_bounds ds with
  | .ok (alo, ahi), .ok (wlo, whi) =>
    some ⟨"All", "All", (alo : ℚ), (ahi : ℚ), (wlo : ℚ), (whi : ℚ)⟩
  | _, _ => none

/-- A dataset whose AirQuality maximum is fractional: `int()` truncation of
the slider bound then cuts the maximum record off. -/
def fracCity : Record := ⟨"CityF", "CountryX", "RegionY", mkRat 1 2, 0⟩

/-- Counterexample to C2 as stated: on the one-record dataset whose AirQuality
is 1/2, the default slider bounds truncate to (0, 0), and the default
filter drops the record, so the default FilteredView is not the Dataset. -/
theorem c2_default_filter_not_noop_counterexample :
    default_state [fracCity] = some ⟨"All", "All", 0, 0, 0, 0⟩ ∧
    apply_filters [fracCity] ⟨"All", "All", 0, 0, 0, 0⟩ ≠ [fracCity] := by
  constructor
  · decide
  · decide

/-- C2 (amended): the default FilterState ("All" categories, sliders at their
default bounds) yields the full Dataset back, provided every AirQuality and
WaterPollution value is an integer — `int()` truncation of the slider
bounds is then lossless.  (With fractional values the truncated upper
bound can exclude the column's maximum record.) -/
theorem c2_default_filter_noop (ds : List Record) (st : FilterState)
    (hair : ∀ r ∈ ds, r.airQuality.den = 1)
    (hwater : ∀ r ∈ ds, r.waterPollution.den = 1)
    (hst : default_state ds = some st) :
    apply_filters ds st = ds := by
  match ds, hair, hwater with
  | [], _, _ =>
    rw [show default_state [] = none from rfl] at hst
    exact Option.noConfusion hst
  | a :: as, hair, hwater =>
    obtain ⟨m, hm, hmmem, hmle⟩ :=
      series_min_spec (show (a :: as).map Record.airQuality ≠ [] by simp)
    obtain ⟨M, hM, hMmem, hMle⟩ :=
      series_max_spec (show (a :: as).map Record.airQuality ≠ [] by simp)
    obtain ⟨wm, hwm, hwmmem, hwmle⟩ :=
      series_min_spec (show (a :: as).map Record.waterPollution ≠ [] by simp)
    obtain ⟨wM, hwM, hwMmem, hwMle⟩ :=
      series_max_spec (show (a :: as).map Record.waterPollution ≠ [] by simp)
    have hst' : st = ⟨"All", "All", (pyInt m : ℚ), (pyInt M : ℚ),
        (pyInt wm : ℚ), (pyInt wM : ℚ)⟩ := by
      unfold default_state air_slider_bounds water_slider_bounds at hst
      rw [hm, hM, hwm, hwM] at hst
      exact (Option.some.inj hst).symm
    subst hst'
    have denm : m.den = 1 := by
      obtain ⟨r, hr, hrm⟩ := List.mem_map.mp hmmem
      exact hrm ▸ hair r hr
    have denM : M.den = 1 := by
      obtain ⟨r, hr, hrm⟩ := List.mem_map.mp hMmem
      exact hrm ▸ hair r hr
    have denwm : wm.den = 1 := by
      obtain ⟨r, hr, hrm⟩ := List.mem_map.mp hwmmem
      exact hrm ▸ hwater r hr
    have denwM : wM.den = 1 := by
      obtain ⟨r, hr, hrm⟩ := List.mem_map.mp hwMmem
      exact hrm ▸ hwater r hr
    have castm : ((pyInt m : ℤ) : ℚ) = m := by rw [pyInt_den_one denm, rat_num_cast denm]
    have castM : ((pyInt M : ℤ) : ℚ) = M := by rw [pyInt_den_one denM, rat_num_cast denM]
    have castwm : ((pyInt wm : ℤ) : ℚ) = wm := by
      rw [pyInt_den_one denwm, rat_num_cast denwm]
    have castwM : ((pyInt wM : ℤ) : ℚ) = wM := by
      rw [pyInt_den_one denwM, rat_num_cast denwM]
    show filter_water_range (filter_air_range
      (filter_by_region (filter_by_country (a :: as) "All") "All")
      (pyInt m : ℚ) (pyInt M : ℚ)) (pyInt wm : ℚ) (pyInt wM : ℚ) = a :: as
    have h1 : filter_by_country (a :: as) "All" = a :: as := by
      unfold filter_by_country
      simp
    have h2 : filter_by_region (a :: as) "All" = a :: as := by
      unfold filter_by_region
      simp
    have h3 : filter_air_range (a :: as) (pyInt m : ℚ) (pyInt M : ℚ) = a :: as := by
      unfold filter_air_range
      apply List.filter_eq_self.mpr
      intro r hr
      simp only [Bool.and_eq_true, decide_eq_true_eq]
      rw [castm, castM]
      exact ⟨hmle _ (List.mem_map_of_mem _ hr), hMle _ (List.mem_map_of_mem _ hr)⟩
    have h4 : filter_water_range (a :: as) (pyInt wm : ℚ) (pyInt wM : ℚ) = a :: as := by
      unfold filter_water_range
      apply List.filter_eq_self.mpr
      intro r hr
      simp only [Bool.and_eq_true, decide_eq_true_eq]
      rw [castwm, castwM]
      exact ⟨hwmle _ (List.mem_map_of_mem _ hr), hwMle _ (List.mem_map_of_mem _ hr)⟩
    rw [h1, h2, h3, h4]

/-- Witness for C2 (amended) at a concrete input: on the integer-valued sample
dataset the default state has bounds (60, 90) and (10, 50) and filtering
with it returns the dataset unchanged. -/
theorem c2_default_filter_noop_witness :
    apply_filters sampleData
      ⟨"All", "All", ((60 : ℤ) : ℚ), ((90 : ℤ) : ℚ), ((10 : ℤ) : ℚ), ((50 : ℤ) : ℚ)⟩ =
      sampleData :=
  c2_default_filter_noop sampleData _ (by decide) (by decide) (by decide)

/-- C7: on the empty dataset, the slider-bound computation of main.py lines
45-53 raises Python `ValueError` (thrown by `int()` applied to the NaN
that `min()`/`max()` return on an empty column) — an uncaught crash, not a
ConfigurationError surfaced as a disabled/no-op filter state. -/
theorem c7_empty_dataset_bounds_crash :
    air_slider_bounds [] = .exn "ValueError: cannot convert float NaN to integer" ∧
    water_slider_bounds [] = .exn "ValueError: cannot convert float NaN to integer" :=
  ⟨rfl, rfl⟩

/-- Embeds `["All"] + sorted(df["Region"].unique().tolist())` evaluated over
the country-filtered frame (main.py line 41). -/
def region_options (ds : List Record) (c : String) : List String :=
  "All" :: ((filter_by_country ds c).map Record.region).dedup.mergeSort
    (fun a b => decide (a ≤ b))

/-- The frame from which main.py derives the slider bounds: the dataset after
the country and the region selectbox filters (lines 38-43). -/
def cat_filtered (ds : List Record) (c g : String) : List Record :=
  filter_by_region (filter_by_country ds c) g

/-- C10: the filter options are derived from the already-filtered data, not
from the full Dataset — for a country selection other than "All" the
offered Region choices are exactly the sentinel plus the distinct Region
values among that country's records, and the slider-bound frame is exactly
the country/region-filtered subset, whose int-truncated column minimum and
maximum become the slider bounds. -/
theorem c10_options_derived_from_filtered (ds : List Record) (c g reg : String)
    (hc : c ≠ "All") (hne : cat_filtered ds c g ≠ []) :
    (reg ∈ region_options ds c ↔
      reg = "All" ∨ ∃ r ∈ ds, r.country = c ∧ r.region = reg) ∧
    cat_filtered ds c g =
      ds.filter (fun r => (r.country == c) && (g == "All" || r.region == g)) ∧
    (∃ m M, m ∈ (cat_filtered ds c g).map Record.airQuality ∧
      M ∈ (cat_filtered ds c g).map Record.airQuality ∧
      (∀ y ∈ (cat_filtered ds c g).map Record.airQuality, m ≤ y ∧ y ≤ M) ∧
      air_slider_bounds (cat_filtered ds c g) = .ok (pyInt m, pyInt M)) ∧
    (∃ m M, m ∈ (cat_filtered ds c g).map Record.waterPollution ∧
      M ∈ (cat_filtered ds c g).map Record.waterPollution ∧
      (∀ y ∈ (cat_filtered ds c g).map Record.waterPollution, m ≤ y ∧ y ≤ M) ∧
      water_slider_bounds (cat_filtered ds c g) = .ok (pyInt m, pyInt M)) := by
  refine ⟨?_, ?_, ?_, ?_⟩
  · unfold region_options
    rw [List.mem_cons, List.mem_mergeSort, List.mem_dedup]
    simp only [List.mem_map, mem_filter_by_country, hc, false_or]
    constructor
    · rintro (rfl | ⟨r, ⟨hr, hrc⟩, hrr⟩)
      · exact Or.inl rfl
      · exact Or.inr ⟨r, hr, hrc, hrr⟩
    · rintro (rfl | ⟨r, hr, hrc, hrr⟩)
      · exact Or.inl rfl
      · exact Or.inr ⟨r, ⟨hr, hrc⟩, hrr⟩
  · unfold cat_filtered filter_by_country filter_by_region
    rw [if_neg hc]
    by_cases hg : g = "All"
    · rw [if_pos hg]
      apply (List.filter_congr ?_).symm
      intro r _
      simp [hg]
    · rw [if_neg hg, List.filter_filter]
      apply List.filter_congr
      intro r _
      have : (g == "All") = false := by
        simpa using hg
      simp [this, Bool.and_comm]
  · have hcol : (cat_filtered ds c g).map Record.airQuality ≠ [] := by
      intro h
      exact hne (List.map_eq_nil_iff.mp h)
    obtain ⟨m, hm, hmmem, hmle⟩ := series_min_spec hcol
    obtain ⟨M, hM, hMmem, hMle⟩ := series_max_spec hcol
    refine ⟨m, M, hmmem, hMmem, fun y hy => ⟨hmle y hy, hMle y hy⟩, ?_⟩
    unfold air_slider_bounds
    rw [hm, hM]
  · have hcol : (cat_filtered ds c g).map Record.waterPollution ≠ [] := by
      intro h
      exact hne (List.map_eq_nil_iff.mp h)
    obtain ⟨m, hm, hmmem, hmle⟩ := series_min_spec hcol
    obtain ⟨M, hM, hMmem, hMle⟩ := series_max_spec hcol
    refine ⟨m, M, hmmem, hMmem, fun y hy => ⟨hmle y hy, hMle y hy⟩, ?_⟩
    unfold water_slider_bounds
    rw [hm, hM]

/-- Witness for C10 at a concrete input: country CountryX with region RegionY
on the sample dataset. -/
theorem c10_options_derived_from_filtered_witness :
    (("RegionY" : String) ∈ region_options sampleData "CountryX" ↔
      ("RegionY" : String) = "All" ∨
        ∃ r ∈ sampleData, r.country = "CountryX" ∧ r.region = "RegionY") ∧
    cat_filtered sampleData "CountryX" "RegionY" =
      sampleData.filter
        (fun r => (r.country == "CountryX") && ("RegionY" == "All" || r.region == "RegionY")) ∧
    (∃ m M, m ∈ (cat_filtered sampleData "CountryX" "RegionY").map Record.airQuality ∧
      M ∈ (cat_filtered sampleData "CountryX" "RegionY").map Record.airQuality ∧
      (∀ y ∈ (cat_filtered sampleData "CountryX" "RegionY").map Record.airQuality,
        m ≤ y ∧ y ≤ M) ∧
      air_slider_bounds (cat_filtered sampleData "CountryX" "RegionY") =
        .ok (pyInt m, pyInt M)) ∧
    (∃ m M, m ∈ (cat_filtered sampleData "CountryX" "RegionY").map Record.waterPollution ∧
      M ∈ (cat_filtered sampleData "CountryX" "RegionY").map Record.waterPollution ∧
      (∀ y ∈ (cat_filtered sampleData "CountryX" "RegionY").map Record.waterPollution,
        m ≤ y ∧ y ≤ M) ∧
      water_slider_bounds (cat_filtered sampleData "CountryX" "RegionY") =
        .ok (pyInt m, pyInt M)) :=
  c10_options_derived_from_filtered sampleData "CountryX" "RegionY" "RegionY"
    (by decide) (by decide)

/-- Documented contract of `df.sort_values(field, ascending=False)` under the
default `kind="quicksort"`: some permutation of the rows that is
non-increasing in the field.  pandas guarantees a stable order only for
`kind="mergesort"`/`kind="stable"`, so the tie order is unspecified and we
model the call as a relation over all permissible outputs. -/
def IsSortValuesDesc (key : Record → ℚ) (df out : List Record) : Prop :=
  df.Perm out ∧ out.Sorted (fun a b => key b ≤ key a)

/-- Embeds `top_cities = df.sort_values("AirQuality", ascending=False).head(10)`
(main.py line 118): any contract-permissible result. -/
def IsTopCities (df out : List Record) : Prop :=
  ∃ s, IsSortValuesDesc Record.airQuality df s ∧ out = s.take 10

/-- Embeds `worst_cities = df.sort_values("WaterPollution", ascending=False).head(10)`
(main.py line 126): any contract-permissible result. -/
def IsWorstCities (df out : List Record) : Prop :=
  ∃ s, IsSortValuesDesc Record.waterPollution df s ∧ out = s.take 10

/-- Spec-side notion (from the claim's words): records with equal field values
appear in the output in their original relative order from the view. -/
def StableTiesBy (key : Record → ℚ) (df out : List Record) : Prop :=
  ∀ q : ℚ, (out.filter (fun r => key r == q)).Sublist (df.filter (fun r => key r == q))

theorem sorted_mergeSort_key {α : Type} (key : α → ℚ) (l : List α) :
    (l.mergeSort (fun a b => decide (key b ≤ key a))).Sorted (fun a b => key b ≤ key a) := by
  have h := @List.sorted_mergeSort _ (fun a b => decide (key b ≤ key a))
    (fun a b c hab hbc => by
      rw [decide_eq_true_eq] at *
      exact le_trans hbc hab)
    (fun a b => by
      rw [Bool.or_eq_true, decide_eq_true_eq, decide_eq_true_eq]
      exact le_total (key b) (key a)) l
  exact h.imp (fun hab => of_decide_eq_true hab)

theorem exists_sort_values_desc (key : Record → ℚ) (df : List Record) :
    ∃ s, IsSortValuesDesc key df s :=
  ⟨df.mergeSort (fun a b => decide (key b ≤ key a)), (List.mergeSort_perm df _).symm,
    sorted_mergeSort_key key df⟩

/-- Two records tied on AirQuality, distinguishable by City. -/
def tieCityA : Record := ⟨"TieA", "CountryX", "RegionY", 70, 30⟩

/-- Second record of the tied pair. -/
def tieCityB : Record := ⟨"TieB", "CountryX", "RegionY", 70, 40⟩

/-- Counterexample to C3 as stated: on the two-record view [TieA, TieB] with
equal AirQuality, the reversed order [TieB, TieA] is a contract-permissible
`sort_values(..., ascending=False).head(10)` output (the default quicksort
is not stable), yet it does not keep the tied records in their original
relative order. -/
theorem c3_stable_ties_counterexample :
    IsTopCities [tieCityA, tieCityB] [tieCityB, tieCityA] ∧
    ¬ StableTiesBy Record.airQuality [tieCityA, tieCityB] [tieCityB, tieCityA] := by
  constructor
  · exact ⟨[tieCityB, tieCityA], ⟨by decide, by decide⟩, rfl⟩
  · intro h
    exact absurd (h 70) (by decide)

/-- C3 (amended): every contract-permissible `top_cities` output is
non-increasing in AirQuality with length min(10, |view|), and every
contract-permissible `worst_cities` output is non-increasing in
WaterPollution with length min(10, |view|); the tie order among equal
field values is unspecified, because `sort_values` defaults to the
unstable quicksort.  Permissible outputs always exist. -/
theorem c3_rankings_sorted_truncated (view outA outW : List Record)
    (hA : IsTopCities view outA) (hW : IsWorstCities view outW) :
    outA.Sorted (fun a b => b.airQuality ≤ a.airQuality) ∧
    outA.length = min 10 view.length ∧
    outW.Sorted (fun a b => b.waterPollution ≤ a.waterPollution) ∧
    outW.length = min 10 view.length ∧
    (∃ o, IsTopCities view o) ∧ (∃ o, IsWorstCities view o) := by
  obtain ⟨s, ⟨hperm, hsort⟩, rfl⟩ := hA
  obtain ⟨t, ⟨hpermW, hsortW⟩, rfl⟩ := hW
  refine ⟨hsort.sublist (List.take_sublist 10 s), ?_,
    hsortW.sublist (List.take_sublist 10 t), ?_, ?_, ?_⟩
  · rw [List.length_take, hperm.length_eq]
  · rw [List.length_take, hpermW.length_eq]
  · obtain ⟨s', hs'⟩ := exists_sort_values_desc Record.airQuality view
    exact ⟨s'.take 10, s', hs', rfl⟩
  · obtain ⟨t', ht'⟩ := exists_sort_values_desc Record.waterPollution view
    exact ⟨t'.take 10, t', ht', rfl⟩

/-- Witness for C3 (amended) at a concrete input: the sample dataset with its
descending rankings by AirQuality and by WaterPollution. -/
theorem c3_rankings_sorted_truncated_witness :
    ([cityC, cityA, cityB] : List Record).Sorted (fun a b => b.airQuality ≤ a.airQuality) ∧
    ([cityC, cityA, cityB] : List Record).length = min 10 sampleData.length ∧
    ([cityB, cityA, cityC] : List Record).Sorted
      (fun a b => b.waterPollution ≤ a.waterPollution) ∧
    ([cityB, cityA, cityC] : List Record).length = min 10 sampleData.length ∧
    (∃ o, IsTopCities sampleData o) ∧ (∃ o, IsWorstCities sampleData o) :=
  c3_rankings_sorted_truncated sampleData [cityC, cityA, cityB] [cityB, cityA, cityC]
    ⟨[cityC, cityA, cityB], ⟨by decide, by decide⟩, rfl⟩
    ⟨[cityB, cityA, cityC], ⟨by decide, by decide⟩, rfl⟩

/-- One row of the `country_stats` table: a country together with its mean
AirQuality and its mean WaterPollution. -/
structure StatsRow where
  country : String
  airMean : ℚ
  waterMean : ℚ
  deriving DecidableEq

/-- Arithmetic mean of a list of rationals (the pandas "mean" aggregation). -/
def list_mean (l : List ℚ) : ℚ := l.sum / (l.length : ℚ)

/-- Embeds `df.groupby("Country").agg({"AirQuality": "mean", "WaterPollution":
"mean"}).reset_index()` (main.py lines 134-137): groupby's default
`sort=True` yields one row per distinct Country, keys in ascending order,
each carrying the column means over that country's records. -/
def grouped_means (view : List Record) : List StatsRow :=
  (((view.map Record.country).dedup).mergeSort (fun a b => decide (a ≤ b))).map
    (fun c =>
      ⟨c, list_mean ((view.filter (fun r => r.country == c)).map Record.airQuality),
        list_mean ((view.filter (fun r => r.country == c)).map Record.waterPollution)⟩)

/-- Embeds `country_stats = ... .sort_values(by="AirQuality", ascending=False)`
(main.py line 137): the grouped means reordered by any contract-permissible
descending sort on the AirQuality mean (default quicksort, tie order
unspecified). -/
def IsCountryStats (view : List Record) (out : List StatsRow) : Prop :=
  (grouped_means view).Perm out ∧ out.Sorted (fun a b => b.airMean ≤ a.airMean)

/-- C4: `country_stats` partitions the view exactly by Country — every record
matches exactly one output row, every output row has at least one member
record, and the row count equals (hence is bounded by) the number of
distinct Country values present — each row carries the arithmetic mean of
AirQuality and of WaterPollution over that country's records, and the
output is ordered descending by the AirQuality mean.  A permissible output
always exists. -/
theorem c4_country_stats_partition (view : List Record) (out : List StatsRow)
    (h : IsCountryStats view out) :
    (∀ r ∈ view, ∃! row, row ∈ out ∧ row.country = r.country) ∧
    (∀ row ∈ out, ∃ r ∈ view, r.country = row.country) ∧
    out.length = ((view.map Record.country).dedup).length ∧
    (∀ row ∈ out,
      row.airMean =
        list_mean ((view.filter (fun r => r.country == row.country)).map Record.airQuality) ∧
      row.waterMean =
        list_mean ((view.filter (fun r => r.country == row.country)).map
          Record.waterPollution)) ∧
    out.Sorted (fun a b => b.airMean ≤ a.airMean) ∧
    (∃ o, IsCountryStats view o) := by
  obtain ⟨hperm, hsort⟩ := h
  have hmem : ∀ row : StatsRow, row ∈ out ↔ row ∈ grouped_means view :=
    fun row => hperm.mem_iff.symm
  have hchar : ∀ row : StatsRow, row ∈ grouped_means view →
      row = ⟨row.country,
        list_mean ((view.filter (fun r => r.country == row.country)).map Record.airQuality),
        list_mean ((view.filter (fun r => r.country == row.country)).map
          Record.waterPollution)⟩ ∧
      row.country ∈ view.map Record.country := by
    intro row hrow
    unfold grouped_means at hrow
    obtain ⟨c, hc, rfl⟩ := List.mem_map.mp hrow
    rw [List.mem_mergeSort, List.mem_dedup] at hc
    exact ⟨rfl, hc⟩
  have hmemc : ∀ c, c ∈ view.map Record.country →
      (⟨c, list_mean ((view.filter (fun r => r.country == c)).map Record.airQuality),
        list_mean ((view.filter (fun r => r.country == c)).map Record.waterPollution)⟩ :
        StatsRow) ∈ grouped_means view := by
    intro c hc
    unfold grouped_means
    exact List.mem_map.mpr ⟨c, List.mem_mergeSort.mpr (List.mem_dedup.mpr hc), rfl⟩
  refine ⟨?_, ?_, ?_, ?_, hsort, ?_⟩
  · intro r hr
    refine ⟨⟨r.country,
      list_mean ((view.filter (fun x => x.country == r.country)).map Record.airQuality),
      list_mean ((view.filter (fun x => x.country == r.country)).map Record.waterPollution)⟩,
      ⟨(hmem _).mpr (hmemc r.country (List.mem_map_of_mem _ hr)), rfl⟩, ?_⟩
    intro y hy
    obtain ⟨hy1, hy2⟩ := hy
    have h1 := (hchar y ((hmem y).mp hy1)).1
    rw [hy2] at h1
    exact h1
  · intro row hrow
    have h2 := (hchar row ((hmem row).mp hrow)).2
    obtain ⟨r, hr, hrc⟩ := List.mem_map.mp h2
    exact ⟨r, hr, hrc⟩
  · rw [← hperm.length_eq]
    unfold grouped_means
    rw [List.length_map, (List.mergeSort_perm _ _).length_eq]
  · intro row hrow
    have h1 := (hchar row ((hmem row).mp hrow)).1
    exact ⟨congrArg StatsRow.airMean h1, congrArg StatsRow.waterMean h1⟩
  · exact ⟨(grouped_means view).mergeSort (fun a b => decide (b.airMean ≤ a.airMean)),
      (List.mergeSort_perm _ _).symm, sorted_mergeSort_key StatsRow.airMean _⟩

/-- Witness for C4 at a concrete input: the sample dataset with its grouped
means resorted descending by the AirQuality mean. -/
theorem c4_country_stats_partition_witness :
    (∀ r ∈ sampleData, ∃! row,
      row ∈ (grouped_means sampleData).mergeSort
        (fun a b => decide (StatsRow.airMean b ≤ StatsRow.airMean a)) ∧
      row.country = r.country) ∧
    (∀ row ∈ (grouped_means sampleData).mergeSort
        (fun a b => decide (StatsRow.airMean b ≤ StatsRow.airMean a)),
      ∃ r ∈ sampleData, r.country = row.country) ∧
    ((grouped_means sampleData).mergeSort
      (fun a b => decide (StatsRow.airMean b ≤ StatsRow.airMean a))).length =
      ((sampleData.map Record.country).dedup).length ∧
    (∀ row ∈ (grouped_means sampleData).mergeSort
        (fun a b => decide (StatsRow.airMean b ≤ StatsRow.airMean a)),
      row.airMean =
        list_mean ((sampleData.filter (fun r => r.country == row.country)).map
          Record.airQuality) ∧
      row.waterMean =
        list_mean ((sampleData.filter (fun r => r.country == row.country)).map
          Record.waterPollution)) ∧
    ((grouped_means sampleData).mergeSort
      (fun a b => decide (StatsRow.airMean b ≤ StatsRow.airMean a))).Sorted
      (fun a b => b.airMean ≤ a.airMean) ∧
    (∃ o, IsCountryStats sampleData o) :=
  c4_country_stats_partition sampleData
    ((grouped_means sampleData).mergeSort
      (fun a b => decide (StatsRow.airMean b ≤ StatsRow.airMean a)))
    ⟨(List.mergeSort_perm _ _).symm, sorted_mergeSort_key StatsRow.airMean _⟩

/-- Sum of centered cross-products Σ (xᵢ - x̄)(yᵢ - ȳ), the building block of
the Pearson correlation that pandas computes in
`df[["AirQuality", "WaterPollution"]].corr()`. -/
def centered_sum (xs ys : List ℚ) : ℚ :=
  (List.zipWith (fun a b => (a - list_mean xs) * (b - list_mean ys)) xs ys).sum

/-- Pearson correlation coefficient between two columns, in exact real
arithmetic: S(x,y) / (√S(x,x) · √S(y,y)). -/
noncomputable def corr_entry (xs ys : List ℚ) : ℝ :=
  (centered_sum xs ys : ℝ) /
    (Real.sqrt (centered_sum xs xs) * Real.sqrt (centered_sum ys ys))

/-- The 2×2 matrix `df[["AirQuality", "WaterPollution"]].corr()` (main.py line
106), entries indexed (row, column) over the two columns. -/
structure CorrMatrix where
  aa : ℝ
  aw : ℝ
  wa : ℝ
  ww : ℝ

/-- Pearson correlation matrix of the two numeric columns of a view. -/
noncomputable def corr_matrix (view : List Record) : CorrMatrix :=
  ⟨corr_entry (view.map Record.airQuality) (view.map Record.airQuality),
    corr_entry (view.map Record.airQuality) (view.map Record.waterPollution),
    corr_entry (view.map Record.waterPollution) (view.map Record.airQuality),
    corr_entry (view.map Record.waterPollution) (view.map Record.waterPollution)⟩

/-- Outcome of the Correlation Heatmap tab: a computed matrix, or the explicit
"Not enough data to plot correlation heatmap." message. -/
inductive CorrTab where
  | matrix (m : CorrMatrix)
  | insufficient

/-- Embeds main.py lines 105-111: `if len(df) > 1: corr = df[['AirQuality',
'WaterPollution']].corr() ... else: st.write("Not enough data ...")`. -/
noncomputable def correlation_tab (view : List Record) : CorrTab :=
  if 1 < view.length then .matrix (corr_matrix view) else .insufficient

/-- C5: the correlation matrix is computed iff the filtered view has more than
one record; with one record or none the computation is not attempted and
the explicit insufficient-data result is produced instead. -/
theorem c5_correlation_guard (view : List Record) :
    (1 < view.length → correlation_tab view = .matrix (corr_matrix view)) ∧
    (view.length ≤ 1 → correlation_tab view = .insufficient) := by
  constructor
  · intro h
    unfold correlation_tab
    rw [if_pos h]
  · intro h
    unfold correlation_tab
    rw [if_neg (by omega)]

/-- Witness for C5 at concrete inputs: the three-record sample dataset takes
the matrix branch, a one-record view takes the insufficient-data branch. -/
theorem c5_correlation_guard_witness :
    (1 < sampleData.length ∧
      correlation_tab sampleData = .matrix (corr_matrix sampleData)) ∧
    (([cityA] : List Record).length ≤ 1 ∧ correlation_tab [cityA] = .insufficient) :=
  ⟨⟨by decide, (c5_correlation_guard sampleData).1 (by decide)⟩,
    ⟨by decide, (c5_correlation_guard [cityA]).2 (by decide)⟩⟩

theorem centered_sum_comm (xs ys : List ℚ) : centered_sum xs ys = centered_sum ys xs := by
  unfold centered_sum
  rw [List.zipWith_comm]
  have hfun : (fun b a => (a - list_mean xs) * (b - list_mean ys)) =
      fun a b => (a - list_mean ys) * (b - list_mean xs) := by
    funext a b
    ring
  rw [hfun]

theorem centered_sum_self (xs : List ℚ) :
    centered_sum xs xs = (xs.map (fun a => (a - list_mean xs) ^ 2)).sum := by
  unfold centered_sum
  rw [List.zipWith_same]
  have hfun : (fun a : ℚ => (a - list_mean xs) * (a - list_mean xs)) =
      fun a => (a - list_mean xs) ^ 2 := by
    funext a
    ring
  rw [hfun]

theorem list_sum_pos_of_nonneg_of_pos {l : List ℚ} (h0 : ∀ x ∈ l, 0 ≤ x)
    (hx : ∃ x ∈ l, 0 < x) : 0 < l.sum := by
  induction l with
  | nil =>
    obtain ⟨x, hxmem, _⟩ := hx
    cases hxmem
  | cons a as ih =>
    rw [List.sum_cons]
    obtain ⟨x, hxmem, hxpos⟩ := hx
    rcases List.mem_cons.mp hxmem with rfl | hmem
    · have hrest : 0 ≤ as.sum :=
        List.sum_nonneg (fun y hy => h0 y (List.mem_cons_of_mem _ hy))
      linarith
    · have ha := h0 a (List.mem_cons_self _ _)
      have hsum := ih (fun y hy => h0 y (List.mem_cons_of_mem _ hy)) ⟨x, hmem, hxpos⟩
      linarith

theorem centered_sum_self_pos {xs : List ℚ} (hne : ∃ a ∈ xs, ∃ b ∈ xs, a ≠ b) :
    0 < centered_sum xs xs := by
  rw [centered_sum_self]
  obtain ⟨a, ha, b, hb, hab⟩ := hne
  have hkey : a ≠ list_mean xs ∨ b ≠ list_mean xs := by
    by_contra h
    push_neg at h
    exact hab (h.1.trans h.2.symm)
  apply list_sum_pos_of_nonneg_of_pos
  · intro x hx
    obtain ⟨y, _, rfl⟩ := List.mem_map.mp hx
    exact sq_nonneg _
  · rcases hkey with h | h
    · exact ⟨(a - list_mean xs) ^ 2, List.mem_map_of_mem _ ha,
        lt_of_le_of_ne (sq_nonneg _) (Ne.symm (pow_ne_zero 2 (sub_ne_zero.mpr h)))⟩
    · exact ⟨(b - list_mean xs) ^ 2, List.mem_map_of_mem _ hb,
        lt_of_le_of_ne (sq_nonneg _) (Ne.symm (pow_ne_zero 2 (sub_ne_zero.mpr h)))⟩

theorem corr_entry_self {xs : List ℚ} (hne : ∃ a ∈ xs, ∃ b ∈ xs, a ≠ b) :
    corr_entry xs xs = 1 := by
  unfold corr_entry
  have hpos : (0 : ℝ) < (centered_sum xs xs : ℝ) := by
    exact_mod_cast centered_sum_self_pos hne
  rw [Real.mul_self_sqrt hpos.le]
  exact div_self hpos.ne'

theorem corr_entry_comm (xs ys : List ℚ) : corr_entry xs ys = corr_entry ys xs := by
  unfold corr_entry
  rw [centered_sum_comm xs ys, mul_comm]

/-- C9: for every view with at least two records and non-constant AirQuality
and WaterPollution columns, the 2×2 Pearson correlation matrix has both
diagonal entries equal to 1 and is symmetric: the (AirQuality,
WaterPollution) entry equals the (WaterPollution, AirQuality) entry. -/
theorem c9_corr_matrix_diag_symm (view : List Record)
    (_hlen : 2 ≤ view.length)
    (hair : ∃ a ∈ view.map Record.airQuality, ∃ b ∈ view.map Record.airQuality, a ≠ b)
    (hwater : ∃ a ∈ view.map Record.waterPollution,
      ∃ b ∈ view.map Record.waterPollution, a ≠ b) :
    (corr_matrix view).aa = 1 ∧ (corr_matrix view).ww = 1 ∧
    (corr_matrix view).aw = (corr_matrix view).wa :=
  ⟨corr_entry_self hair, corr_entry_self hwater, corr_entry_comm _ _⟩

/-- Witness for C9 at a concrete input: the three-record sample dataset, whose
two numeric columns are both non-constant. -/
theorem c9_corr_matrix_diag_symm_witness :
    2 ≤ sampleData.length ∧
    (corr_matrix sampleData).aa = 1 ∧ (corr_matrix sampleData).ww = 1 ∧
    (corr_matrix sampleData).aw = (corr_matrix sampleData).wa :=
  ⟨by decide, c9_corr_matrix_diag_symm sampleData (by decide) (by decide) (by decide)⟩

/-- Raw content of a successfully parsed delimited file: header cells and data
rows, before any normalization. -/
structure RawCsv where
  header : List String
  rows : List (List String)

/-- Column-header normalization of main.py line 12:
`df.columns.str.replace('"', '').str.strip()` — every quote character is
removed, then surrounding whitespace is trimmed. -/
def normalize_header (s : String) : String :=
  String.mk ((((s.data.filter (fun c => c ≠ '"')).dropWhile Char.isWhitespace).reverse.dropWhile
    Char.isWhitespace).reverse)

/-- Outcome of `load_data`. -/
inductive LoadOutcome where
  | frame (header : List String) (rows : List (List String))
  | fileNotFound
  deriving DecidableEq

/-- Embeds `load_data` (main.py lines 8-13): `pd.read_csv(url)` raises
`FileNotFoundError` on a missing or unreadable source (modelled by `none`);
on success the column headers are normalized.  A file holding only a header
row parses into a frame with zero data rows without any error — pandas
raises only when the file has no columns at all. -/
def load_data : Option RawCsv → LoadOutcome
  | none => .fileNotFound
  | some f => .frame (f.header.map normalize_header) f.rows

/-- C8, evaluated at the failing input: a source file holding only the quoted,
whitespace-padded header row and zero data rows.  `load_data` succeeds with
an empty frame — normalizing the headers as described — instead of failing
the way the claimed LoadError contract requires; a missing source does
raise. -/
theorem c8_load_empty_frame_no_error :
    load_data (some ⟨[" \"City\" ", "\"Country\"", "\"Region\"", "\"AirQuality\"",
        "\"WaterPollution\""], []⟩) =
      .frame ["City", "Country", "Region", "AirQuality", "WaterPollution"] [] ∧
    load_data none = .fileNotFound := by
  constructor
  · decide
  · rfl

/-- Decimal digit character for a digit value. -/
def digit_char : ℕ → Char
  | 0 => '0'
  | 1 => '1'
  | 2 => '2'
  | 3 => '3'
  | 4 => '4'
  | 5 => '5'
  | 6 => '6'
  | 7 => '7'
  | 8 => '8'
  | 9 => '9'
  | _ => '*'

/-- Digit value of a character, 10 on a non-digit. -/
def char_digit (c : Char) : ℕ :=
  if c = '0' then 0
  else if c = '1' then 1
  else if c = '2' then 2
  else if c = '3' then 3
  else if c = '4' then 4
  else if c = '5' then 5
  else if c = '6' then 6
  else if c = '7' then 7
  else if c = '8' then 8
  else if c = '9' then 9
  else 10

def is_digit_char (c : Char) : Bool := decide (char_digit c < 10)

/-- Decimal text of a natural number, most significant digit first. -/
def nat_chars (n : ℕ) : List Char :=
  if n = 0 then ['0'] else ((Nat.digits 10 n).map digit_char).reverse

def nat_of_chars (cs : List Char) : ℕ :=
  Nat.ofDigits 10 (cs.reverse.map char_digit)

theorem char_digit_digit_char {d : ℕ} (h : d < 10) : char_digit (digit_char d) = d := by
  interval_cases d <;> rfl

theorem nat_chars_ne_nil (n : ℕ) : nat_chars n ≠ [] := by
  unfold nat_chars
  split
  · simp
  · rw [← List.length_pos, List.length_reverse, List.length_map]
    rw [List.length_pos]
    exact Nat.digits_ne_nil_iff_ne_zero.mpr (by assumption)

theorem nat_chars_digits (n : ℕ) : ∀ c ∈ nat_chars n, char_digit c < 10 := by
  unfold nat_chars
  split
  · intro c hc
    rw [List.mem_singleton] at hc
    subst hc
    decide
  · intro c hc
    rw [List.mem_reverse] at hc
    obtain ⟨d, hd, rfl⟩ := List.mem_map.mp hc
    have hlt : d < 10 := Nat.digits_lt_base (by norm_num) hd
    rw [char_digit_digit_char hlt]
    exact hlt

theorem nat_of_chars_nat_chars (n : ℕ) : nat_of_chars (nat_chars n) = n := by
  unfold nat_chars nat_of_chars
  by_cases h : n = 0
  · subst h
    decide
  · rw [if_neg h, List.reverse_reverse, List.map_map]
    have hmap : (Nat.digits 10 n).map (char_digit ∘ digit_char) = Nat.digits 10 n := by
      conv_rhs => rw [← List.map_id (Nat.digits 10 n)]
      apply List.map_congr_left
      intro d hd
      exact char_digit_digit_char (Nat.digits_lt_base (by norm_num) hd)
    rw [hmap, Nat.ofDigits_digits]

theorem digit_char_ne {c : Char} (h : char_digit c < 10) :
    c ≠ ',' ∧ c ≠ '\n' ∧ c ≠ '"' ∧ c ≠ '\r' ∧ c ≠ '/' ∧ c ≠ '-' := by
  refine ⟨?_, ?_, ?_, ?_, ?_, ?_⟩ <;> rintro rfl <;> exact absurd h (by decide)

/-- Exact text of a numeric cell.  pandas `to_csv` writes every float64 with
round-trip fidelity (shortest exact repr); the ℚ model of the column
likewise writes the exact value, `num` or `num/den`. -/
def rat_chars (q : ℚ) : List Char :=
  (if q.num < 0 then ['-'] else []) ++ nat_chars q.num.natAbs ++
    (if q.den = 1 then [] else '/' :: nat_chars q.den)

/-- Parses an unsigned numeric cell back. -/
def rat_parse_pos (cs : List Char) : Option ℚ :=
  match cs.span is_digit_char with
  | (ns, tail) =>
    if ns = [] then none
    else
      match tail with
      | [] => some ((nat_of_chars ns : ℚ))
      | c :: rest =>
        if c = '/' then
          if rest ≠ [] ∧ rest.all is_digit_char then
            some (mkRat (nat_of_chars ns) (nat_of_chars rest))
          else none
        else none

/-- Parses a numeric cell back, handling the sign. -/
def rat_parse (cs : List Char) : Option ℚ :=
  match cs with
  | [] => none
  | c :: rest =>
    if c = '-' then (rat_parse_pos rest).map (fun q => -q) else rat_parse_pos (c :: rest)

theorem takeWhile_dropWhile_append {p : Char → Bool} :
    ∀ (A B : List Char), (∀ c ∈ A, p c = true) → (∀ c t, B = c :: t → p c = false) →
      (A ++ B).takeWhile p = A ∧ (A ++ B).dropWhile p = B := by
  intro A
  induction A with
  | nil =>
    intro B _ hB
    cases B with
    | nil => exact ⟨rfl, rfl⟩
    | cons c t =>
      constructor
      · simp [List.takeWhile_cons, hB c t rfl]
      · simp [List.dropWhile_cons, hB c t rfl]
  | cons a A ih =>
    intro B hA hB
    have hpa := hA a (List.mem_cons_self _ _)
    obtain ⟨h1, h2⟩ := ih B (fun c hc => hA c (List.mem_cons_of_mem _ hc)) hB
    constructor
    · simp [List.takeWhile_cons, hpa, h1]
    · simp [List.dropWhile_cons, hpa, h2]

theorem span_append {p : Char → Bool} (A B : List Char) (hA : ∀ c ∈ A, p c = true)
    (hB : ∀ c t, B = c :: t → p c = false) : (A ++ B).span p = (A, B) := by
  obtain ⟨h1, h2⟩ := takeWhile_dropWhile_append A B hA hB
  rw [List.span_eq_take_drop, h1, h2]

theorem nat_chars_all_digit (a : ℕ) : ∀ c ∈ nat_chars a, is_digit_char c = true := by
  intro c hc
  simp only [is_digit_char, decide_eq_true_eq]
  exact nat_chars_digits a c hc

theorem rat_parse_pos_int (a : ℕ) : rat_parse_pos (nat_chars a) = some ((a : ℚ)) := by
  unfold rat_parse_pos
  have hsp : (nat_chars a).span is_digit_char = (nat_chars a, []) := by
    have h := span_append (nat_chars a) [] (nat_chars_all_digit a)
      (fun c t ht => absurd ht (by simp))
    simpa using h
  rw [hsp]
  show (if nat_chars a = [] then none else some ((nat_of_chars (nat_chars a) : ℚ))) =
    some ((a : ℚ))
  rw [if_neg (nat_chars_ne_nil a), nat_of_chars_nat_chars]

theorem rat_parse_pos_frac (a b : ℕ) :
    rat_parse_pos (nat_chars a ++ '/' :: nat_chars b) = some (mkRat a b) := by
  unfold rat_parse_pos
  have hsp : (nat_chars a ++ '/' :: nat_chars b).span is_digit_char =
      (nat_chars a, '/' :: nat_chars b) := by
    apply span_append _ _ (nat_chars_all_digit a)
    intro c t ht
    injection ht with h1 _
    subst h1
    decide
  rw [hsp]
  show (if nat_chars a = [] then none
    else if ('/' : Char) = '/' then
      if nat_chars b ≠ [] ∧ (nat_chars b).all is_digit_char = true then
        some (mkRat (nat_of_chars (nat_chars a)) (nat_of_chars (nat_chars b)))
      else none
    else none) = some (mkRat (a : ℤ) b)
  rw [if_neg (nat_chars_ne_nil a), if_pos rfl,
    if_pos ⟨nat_chars_ne_nil b, List.all_eq_true.mpr (nat_chars_all_digit b)⟩,
    nat_of_chars_nat_chars, nat_of_chars_nat_chars]

theorem natAbs_cast_of_neg {q : ℚ} (h : q.num < 0) :
    ((q.num.natAbs : ℕ) : ℚ) = -(q.num : ℚ) := by
  have h1 : ((q.num.natAbs : ℕ) : ℤ) = -q.num := by omega
  rw [← @Int.cast_natCast ℚ _ q.num.natAbs, h1, Int.cast_neg]

theorem natAbs_cast_of_nonneg {q : ℚ} (h : 0 ≤ q.num) :
    ((q.num.natAbs : ℕ) : ℚ) = (q.num : ℚ) := by
  have h1 : ((q.num.natAbs : ℕ) : ℤ) = q.num := by omega
  rw [← @Int.cast_natCast ℚ _ q.num.natAbs, h1]

theorem rat_parse_rat_chars (q : ℚ) : rat_parse (rat_chars q) = some q := by
  unfold rat_chars rat_parse
  by_cases hneg : q.num < 0
  · rw [if_pos hneg]
    show (if ('-' : Char) = '-' then
        (rat_parse_pos (nat_chars q.num.natAbs ++
          (if q.den = 1 then [] else '/' :: nat_chars q.den))).map (fun x => -x)
      else rat_parse_pos ('-' :: (nat_chars q.num.natAbs ++
          (if q.den = 1 then [] else '/' :: nat_chars q.den)))) = some q
    rw [if_pos rfl]
    by_cases hden : q.den = 1
    · rw [if_pos hden, List.append_nil, rat_parse_pos_int, Option.map_some',
        natAbs_cast_of_neg hneg, neg_neg, rat_num_cast hden]
    · rw [if_neg hden, rat_parse_pos_frac, Option.map_some']
      have hnum : ((q.num.natAbs : ℕ) : ℤ) = (-q).num := by
        rw [Rat.neg_num]
        omega
      have hden' : q.den = (-q).den := (Rat.neg_den q).symm
      rw [show mkRat ((q.num.natAbs : ℕ) : ℤ) q.den = mkRat (-q).num (-q).den from by
          rw [← hnum, ← hden'],
        Rat.mkRat_self, neg_neg]
  · rw [if_neg hneg]
    obtain ⟨c0, A', hA⟩ := List.exists_cons_of_ne_nil (nat_chars_ne_nil q.num.natAbs)
    rw [hA]
    show (if c0 = '-' then
        (rat_parse_pos (A' ++ (if q.den = 1 then [] else '/' :: nat_chars q.den))).map
          (fun x => -x)
      else rat_parse_pos ((c0 :: A') ++
          (if q.den = 1 then [] else '/' :: nat_chars q.den))) = some q
    have hc0 : char_digit c0 < 10 :=
      nat_chars_digits _ c0 (hA ▸ List.mem_cons_self c0 A')
    rw [if_neg (digit_char_ne hc0).2.2.2.2.2, ← hA]
    by_cases hden : q.den = 1
    · rw [if_pos hden, List.append_nil, rat_parse_pos_int,
        natAbs_cast_of_nonneg (le_of_not_lt hneg), rat_num_cast hden]
    · rw [if_neg hden, rat_parse_pos_frac]
      have hnum : ((q.num.natAbs : ℕ) : ℤ) = q.num := by omega
      rw [show mkRat ((q.num.natAbs : ℕ) : ℤ) q.den = mkRat q.num q.den from by rw [hnum],
        Rat.mkRat_self]

/-- Characters that force quoting in the csv QUOTE_MINIMAL dialect used by
`DataFrame.to_csv`: the separator, the quote and line breaks. -/
def special_char (c : Char) : Bool := c = ',' || c = '"' || c = '\n' || c = '\r'

/-- Doubles every quote character (csv quote escaping). -/
def escape_quotes : List Char → List Char
  | [] => []
  | c :: rest => if c = '"' then '"' :: '"' :: escape_quotes rest else c :: escape_quotes rest

/-- QUOTE_MINIMAL cell serialization of `DataFrame.to_csv`: a cell containing
a separator, quote or line break is wrapped in quotes with inner quotes
doubled; any other cell is written bare. -/
def write_field (s : List Char) : List Char :=
  if s.any special_char then '"' :: (escape_quotes s ++ ['"']) else s

/-- One line: cells joined with the comma separator. -/
def write_row : List (List Char) → List Char
  | [] => []
  | [f] => write_field f
  | f :: rest => write_field f ++ ',' :: write_row rest

/-- All lines, each terminated by a newline (`to_csv` terminates every line). -/
def write_rows : List (List (List Char)) → List Char
  | [] => []
  | r :: rs => write_row r ++ '\n' :: write_rows rs

/-- Reads a quoted cell after its opening quote: a doubled quote becomes a
literal quote, the next single quote closes the cell. -/
def parse_quoted : List Char → Option (List Char × List Char)
  | [] => none
  | c :: rest =>
    if c = '"' then
      match rest with
      | [] => some ([], [])
      | r :: rest2 =>
        if r = '"' then (parse_quoted rest2).map (fun p => ('"' :: p.1, p.2))
        else some ([], r :: rest2)
    else (parse_quoted rest).map (fun p => (c :: p.1, p.2))

/-- Reads one cell: quoted when it starts with a quote, else bare up to the
next separator or line break. -/
def parse_field (cs : List Char) : Option (List Char × List Char) :=
  match cs with
  | [] => some ([], [])
  | c :: rest =>
    if c = '"' then parse_quoted rest
    else some ((c :: rest).span (fun x => decide (x ≠ ',' ∧ x ≠ '\n')))

/-- Reads one line of cells (fuelled recursion; the fuel only needs to reach
the number of cells). -/
def parse_row : ℕ → List Char → Option (List (List Char) × List Char)
  | 0, _ => none
  | fuel + 1, cs =>
    match parse_field cs with
    | none => none
    | some (f, rest) =>
      match rest with
      | [] => some ([f], [])
      | c :: rest2 =>
        if c = ',' then (parse_row fuel rest2).map (fun p => (f :: p.1, p.2))
        else if c = '\n' then some ([f], rest2)
        else none

/-- Reads all lines. -/
def parse_rows : ℕ → List Char → Option (List (List (List Char)))
  | 0, _ => none
  | fuel + 1, cs =>
    if cs.isEmpty then some []
    else
      match parse_row (cs.length + 1) cs with
      | none => none
      | some (row, remaining) => (parse_rows fuel remaining).map (fun rs => row :: rs)

theorem parse_quoted_escape :
    ∀ (f T : List Char), (∀ t, T ≠ '"' :: t) →
      parse_quoted (escape_quotes f ++ '"' :: T) = some (f, T) := by
  intro f
  induction f with
  | nil =>
    intro T hT
    cases T with
    | nil => rfl
    | cons r t =>
      have hr : r ≠ '"' := fun h => hT t (by rw [h])
      show parse_quoted ('"' :: r :: t) = some ([], r :: t)
      simp [parse_quoted, hr]
  | cons a f ih =>
    intro T hT
    by_cases ha : a = '"'
    · subst ha
      have heq : escape_quotes ('"' :: f) = '"' :: '"' :: escape_quotes f := rfl
      rw [heq]
      show parse_quoted ('"' :: '"' :: (escape_quotes f ++ '"' :: T)) = some ('"' :: f, T)
      simp [parse_quoted, ih T hT]
    · have heq : escape_quotes (a :: f) = a :: escape_quotes f := by
        simp [escape_quotes, ha]
      rw [heq]
      show parse_quoted (a :: (escape_quotes f ++ '"' :: T)) = some (a :: f, T)
      rw [parse_quoted.eq_def]
      simp [ha, ih T hT]

theorem parse_field_write (f T : List Char)
    (hT : T = [] ∨ (∃ t, T = ',' :: t) ∨ (∃ t, T = '\n' :: t)) :
    parse_field (write_field f ++ T) = some (f, T) := by
  unfold write_field
  by_cases hq : f.any special_char
  · rw [if_pos hq]
    have hquote : ∀ t, T ≠ '"' :: t := by
      rcases hT with rfl | ⟨t, rfl⟩ | ⟨t, rfl⟩
      · intro t h
        exact absurd h (by simp)
      · intro t' h
        injection h with h1 _
        exact absurd h1 (by decide)
      · intro t' h
        injection h with h1 _
        exact absurd h1 (by decide)
    show parse_field ('"' :: ((escape_quotes f ++ ['"']) ++ T)) = some (f, T)
    rw [parse_field.eq_def]
    simp only [if_pos rfl]
    rw [List.append_assoc]
    show parse_quoted (escape_quotes f ++ '"' :: T) = some (f, T)
    exact parse_quoted_escape f T hquote
  · rw [if_neg hq]
    have hall : ∀ c ∈ f, special_char c = false := by
      intro c hc
      by_contra h
      exact hq (List.any_eq_true.mpr ⟨c, hc, by simpa using h⟩)
    have hA : ∀ c ∈ f, (decide (c ≠ ',' ∧ c ≠ '\n')) = true := by
      intro c hc
      have h := hall c hc
      simp only [special_char, Bool.or_eq_false_iff, decide_eq_false_iff_not] at h
      simp [h.1.1.1, h.1.2]
    have hB : ∀ c t, T = c :: t → (decide (c ≠ ',' ∧ c ≠ '\n')) = false := by
      rcases hT with rfl | ⟨t, rfl⟩ | ⟨t, rfl⟩
      · intro c t h
        exact absurd h (by simp)
      · intro c t' h
        injection h with h1 _
        subst h1
        decide
      · intro c t' h
        injection h with h1 _
        subst h1
        decide
    cases f with
    | nil =>
      rcases hT with rfl | ⟨t, rfl⟩ | ⟨t, rfl⟩
      · rfl
      · show parse_field (',' :: t) = some ([], ',' :: t)
        rw [parse_field.eq_def]
        simp only [if_neg (by decide : ¬((',' : Char) = '"'))]
        rw [show (',' :: t).span (fun x => decide (x ≠ ',' ∧ x ≠ '\n')) = ([], ',' :: t) from
          span_append [] (',' :: t) (fun c hc => absurd hc (List.not_mem_nil c))
            (fun c t' h => hB c t' h)]
      · show parse_field ('\n' :: t) = some ([], '\n' :: t)
        rw [parse_field.eq_def]
        simp only [if_neg (by decide : ¬(('\n' : Char) = '"'))]
        rw [show ('\n' :: t).span (fun x => decide (x ≠ ',' ∧ x ≠ '\n')) = ([], '\n' :: t) from
          span_append [] ('\n' :: t) (fun c hc => absurd hc (List.not_mem_nil c))
            (fun c t' h => hB c t' h)]
    | cons c0 f' =>
      have hc0 : c0 ≠ '"' := by
        have h := hall c0 (List.mem_cons_self _ _)
        simp only [special_char, Bool.or_eq_false_iff, decide_eq_false_iff_not] at h
        exact h.1.1.2
      show parse_field (c0 :: (f' ++ T)) = some (c0 :: f', T)
      rw [parse_field.eq_def]
      simp only [if_neg hc0]
      rw [show c0 :: (f' ++ T) = (c0 :: f') ++ T from rfl,
        span_append (c0 :: f') T hA hB]

theorem parse_row_write :
    ∀ (row : List (List Char)) (k : ℕ) (t : List Char), row ≠ [] → row.length ≤ k →
      parse_row k (write_row row ++ '\n' :: t) = some (row, t) := by
  intro row
  induction row with
  | nil =>
    intro k t h _
    exact absurd rfl h
  | cons f rest ih =>
    intro k t _ hk
    match k, hk with
    | k + 1, hk =>
      cases rest with
      | nil =>
        show parse_row (k + 1) (write_field f ++ '\n' :: t) = some ([f], t)
        simp only [parse_row]
        rw [parse_field_write f ('\n' :: t) (Or.inr (Or.inr ⟨t, rfl⟩))]
        simp
      | cons g rs =>
        show parse_row (k + 1) ((write_field f ++ ',' :: write_row (g :: rs)) ++ '\n' :: t) =
          some (f :: g :: rs, t)
        rw [List.append_assoc]
        show parse_row (k + 1) (write_field f ++ ',' :: (write_row (g :: rs) ++ '\n' :: t)) =
          some (f :: g :: rs, t)
        simp only [parse_row]
        rw [parse_field_write f (',' :: (write_row (g :: rs) ++ '\n' :: t))
          (Or.inr (Or.inl ⟨_, rfl⟩))]
        have hrec := ih k t (by simp) (by simp at hk ⊢; omega)
        simp [hrec]

theorem write_row_length (row : List (List Char)) : row.length ≤ (write_row row).length + 1 := by
  induction row with
  | nil => simp [write_row]
  | cons f rest ih =>
    cases rest with
    | nil => simp [write_row]
    | cons g rs =>
      show (f :: g :: rs).length ≤ (write_field f ++ ',' :: write_row (g :: rs)).length + 1
      rw [List.length_append]
      simp only [List.length_cons] at *
      omega

theorem write_rows_length (rows : List (List (List Char))) :
    rows.length ≤ (write_rows rows).length := by
  induction rows with
  | nil => simp [write_rows]
  | cons r rs ih =>
    show (r :: rs).length ≤ (write_row r ++ '\n' :: write_rows rs).length
    rw [List.length_append]
    simp only [List.length_cons] at *
    omega

theorem parse_rows_write :
    ∀ (rows : List (List (List Char))) (fuel : ℕ), rows.length < fuel →
      (∀ row ∈ rows, row ≠ []) → parse_rows fuel (write_rows rows) = some rows := by
  intro rows
  induction rows with
  | nil =>
    intro fuel hf _
    match fuel, hf with
    | fuel + 1, _ => rfl
  | cons r rs ih =>
    intro fuel hf hne
    match fuel, hf with
    | fuel + 1, hf =>
      show parse_rows (fuel + 1) (write_row r ++ '\n' :: write_rows rs) = some (r :: rs)
      have hlen : (write_row r ++ '\n' :: write_rows rs).length =
          (write_row r).length + 1 + (write_rows rs).length := by
        rw [List.length_append, List.length_cons]
        omega
      have hnonempty : (write_row r ++ '\n' :: write_rows rs).isEmpty = false := by
        rw [List.isEmpty_eq_false_iff_exists_mem]
        exact ⟨'\n', by simp⟩
      rw [parse_rows.eq_def]
      simp only [hnonempty, Bool.false_eq_true, if_false]
      rw [parse_row_write r ((write_row r ++ '\n' :: write_rows rs).length + 1) (write_rows rs)
        (hne r (List.mem_cons_self _ _))
        (by
          have h1 := write_row_length r
          rw [hlen]
          omega)]
      show Option.map (fun x => r :: x) (parse_rows fuel (write_rows rs)) = some (r :: rs)
      rw [ih fuel (by simp at hf ⊢; omega) (fun row hrow => hne row (List.mem_cons_of_mem _ hrow))]
      rfl

/-- The header cells, in the declared column order of the dataset. -/
def csv_header_row : List (List Char) :=
  ["City".data, "Country".data, "Region".data, "AirQuality".data, "WaterPollution".data]

/-- The cells of one record, in the declared column order. -/
def record_row (r : Record) : List (List Char) :=
  [r.city.data, r.country.data, r.region.data, rat_chars r.airQuality,
    rat_chars r.waterPollution]

/-- Embeds `df.to_csv(index=False).encode('utf-8')` (main.py lines 144-149):
the header row, then one newline-terminated line per record, cells in the
declared column order, no row-index column, cells quoted and escaped as
needed (UTF-8 is the String type itself). -/
def to_delimited_text (view : List Record) : String :=
  String.mk (write_rows (csv_header_row :: view.map record_row))

/-- Rebuilds a record from one parsed line of cells. -/
def row_to_record (row : List (List Char)) : Option Record :=
  match row with
  | [c1, c2, c3, c4, c5] =>
    match rat_parse c4, rat_parse c5 with
    | some a, some w => some ⟨String.mk c1, String.mk c2, String.mk c3, a, w⟩
    | _, _ => none
  | _ => none

def rows_to_records : List (List (List Char)) → Option (List Record)
  | [] => some []
  | row :: rest =>
    match row_to_record row, rows_to_records rest with
    | some r, some rs => some (r :: rs)
    | _, _ => none

/-- Re-parses delimited text: all lines are read with full quote handling, the
first line must be the declared header, and every following line becomes
one record. -/
def from_delimited_text (s : String) : Option (List Record) :=
  match parse_rows (s.data.length + 1) s.data with
  | none => none
  | some [] => none
  | some (hdr :: rows) =>
    if hdr = csv_header_row then rows_to_records rows else none

theorem row_to_record_record_row (r : Record) : row_to_record (record_row r) = some r := by
  show (match rat_parse (rat_chars r.airQuality), rat_parse (rat_chars r.waterPollution) with
    | some a, some w => some (⟨String.mk r.city.data, String.mk r.country.data,
        String.mk r.region.data, a, w⟩ : Record)
    | _, _ => none) = some r
  rw [rat_parse_rat_chars, rat_parse_rat_chars]

theorem rows_to_records_map (view : List Record) :
    rows_to_records (view.map record_row) = some view := by
  induction view with
  | nil => rfl
  | cons r rs ih =>
    show rows_to_records (record_row r :: rs.map record_row) = some (r :: rs)
    simp only [rows_to_records]
    rw [row_to_record_record_row, ih]

/-- C6: round-trip — serializing any filtered view with `to_delimited_text`
(header row plus one row per record, fixed column order, no row-index
column) and re-parsing the resulting delimited text yields exactly the
original view: the same records in the same order with the same field
values. -/
theorem c6_export_roundtrip (view : List Record) :
    from_delimited_text (to_delimited_text view) = some view := by
  unfold to_delimited_text from_delimited_text
  have hrows : parse_rows
      ((write_rows (csv_header_row :: view.map record_row)).length + 1)
      (write_rows (csv_header_row :: view.map record_row)) =
      some (csv_header_row :: view.map record_row) := by
    apply parse_rows_write
    · have h1 := write_rows_length (csv_header_row :: view.map record_row)
      omega
    · intro row hrow
      rcases List.mem_cons.mp hrow with rfl | h
      · simp [csv_header_row]
      · obtain ⟨r, _, rfl⟩ := List.mem_map.mp h
        simp [record_row]
  show (match parse_rows
      ((write_rows (csv_header_row :: view.map record_row)).length + 1)
      (write_rows (csv_header_row :: view.map record_row)) with
    | none => none
    | some [] => none
    | some (hdr :: rows) =>
      if hdr = csv_header_row then rows_to_records rows else none) = some view
  rw [hrows]
  show (if csv_header_row = csv_header_row then rows_to_records (view.map record_row)
    else none) = some view
  rw [if_pos rfl, rows_to_records_map]
